import Mathlib

/-!
Verification of `rdb_to_json.py` and `dump_to_conversations.py`.

Byte strings are modelled as `List Nat` (each element `< 256`); Python `str`
values are modelled as lists of Unicode code points (`List Nat`) where the
exact code-point content matters, and as Lean `String` where only equality
matters.
-/

set_option maxHeartbeats 1000000

namespace Rdb2Json

/-! ## UTF-8 codec

Models Python `bytes.decode("utf-8")` (strict: rejects overlong forms,
surrogates and code points above U+10FFFF) and `str.encode("utf-8")`.
-/

/-- A UTF-8 continuation byte: `0x80 ≤ c < 0xC0`. -/
def isCont (c : Nat) : Bool := 128 ≤ c && c < 192

/-- Allowed first continuation byte after a three-byte leader `b`:
`0xE0` forbids overlong forms, `0xED` forbids surrogates. -/
def cont3ok (b c1 : Nat) : Bool :=
  if b = 224 then 160 ≤ c1 && c1 < 192
  else if b = 237 then 128 ≤ c1 && c1 < 160
  else isCont c1

/-- Allowed first continuation byte after a four-byte leader `b`:
`0xF0` forbids overlong forms, `0xF4` forbids code points above U+10FFFF. -/
def cont4ok (b c1 : Nat) : Bool :=
  if b = 240 then 144 ≤ c1 && c1 < 192
  else if b = 244 then 128 ≤ c1 && c1 < 144
  else isCont c1

/-- Decode one UTF-8 code point: given the first byte `b` and the remaining
bytes, return the code point and the number of continuation bytes consumed. -/
def utf8DecodeOne (b : Nat) (rest : List Nat) : Option (Nat × Nat) :=
  if b < 128 then some (b, 0)
  else if b < 194 then none
  else if b ≤ 223 then
    match rest with
    | c1 :: _ => if isCont c1 then some ((b - 192) * 64 + (c1 - 128), 1) else none
    | [] => none
  else if b ≤ 239 then
    match rest with
    | c1 :: c2 :: _ =>
      if cont3ok b c1 && isCont c2 then
        some ((b - 224) * 4096 + (c1 - 128) * 64 + (c2 - 128), 2)
      else none
    | _ => none
  else if b ≤ 244 then
    match rest with
    | c1 :: c2 :: c3 :: _ =>
      if cont4ok b c1 && isCont c2 && isCont c3 then
        some ((b - 240) * 262144 + (c1 - 128) * 4096 + (c2 - 128) * 64 + (c3 - 128), 3)
      else none
    | _ => none
  else none

/-- Strict UTF-8 decoder: the whole byte string decodes to a list of code
points, or `none` on any invalid sequence (Python `bytes.decode("utf-8")`). -/
def utf8Decode : List Nat → Option (List Nat)
  | [] => some []
  | b :: rest =>
    match utf8DecodeOne b rest with
    | some (cp, k) => (utf8Decode (rest.drop k)).map (fun cs => cp :: cs)
    | none => none
  termination_by l => l.length
  decreasing_by
    simp only [List.length_cons, List.length_drop]
    omega

/-- UTF-8 encoding of a single code point (Python `str.encode("utf-8")`,
on the scalar values a strict decode can produce). -/
def utf8EncodeChar (cp : Nat) : List Nat :=
  if cp < 128 then [cp]
  else if cp < 2048 then [192 + cp / 64, 128 + cp % 64]
  else if cp < 65536 then [224 + cp / 4096, 128 + cp / 64 % 64, 128 + cp % 64]
  else [240 + cp / 262144, 128 + cp / 4096 % 64, 128 + cp / 64 % 64, 128 + cp % 64]

/-- UTF-8 encoding of a sequence of code points. -/
def utf8Encode (cps : List Nat) : List Nat :=
  cps.flatMap utf8EncodeChar

/-! ## Base64 codec

Models Python `base64.b64encode(data).decode("ascii")` (standard alphabet,
`=` padding, code 61) and the corresponding decode.  Strings are lists of
character codes.
-/

/-- The standard base64 alphabet, as ASCII codes: `A-Z a-z 0-9 + /`. -/
def b64Alphabet : List Nat :=
  ((List.range 26).map (fun i => 65 + i)) ++ ((List.range 26).map (fun i => 97 + i)) ++
    ((List.range 10).map (fun i => 48 + i)) ++ [43, 47]

/-- The base64 character (ASCII code) for a sextet value `n < 64`. -/
def b64Char (n : Nat) : Nat := b64Alphabet.getD n 65

/-- The sextet value of a base64 character, `none` for non-alphabet codes. -/
def b64DecVal (c : Nat) : Option Nat := b64Alphabet.findIdx? (fun x => x = c)

/-- Base64-encode a byte string into a string of character codes,
three bytes at a time, padding the final group with `=` (code 61).
Models `base64.b64encode`. -/
def b64EncodeCodes : List Nat → List Nat
  | [] => []
  | [a] => [b64Char (a / 4), b64Char (a % 4 * 16), 61, 61]
  | [a, b] => [b64Char (a / 4), b64Char (a % 4 * 16 + b / 16), b64Char (b % 16 * 4), 61]
  | a :: b :: c :: t =>
    b64Char (a / 4) :: b64Char (a % 4 * 16 + b / 16) :: b64Char (b % 16 * 4 + c / 64) ::
      b64Char (c % 64) :: b64EncodeCodes t

/-- Base64-decode a string of character codes back into bytes
(`base64.b64decode`). -/
def b64DecodeCodes : List Nat → Option (List Nat)
  | [] => some []
  | c0 :: c1 :: c2 :: c3 :: t =>
    match b64DecVal c0, b64DecVal c1 with
    | some s0, some s1 =>
      if c2 = 61 then
        if c3 = 61 ∧ t = [] then some [s0 * 4 + s1 / 16] else none
      else
        match b64DecVal c2 with
        | some s2 =>
          if c3 = 61 then
            if t = [] then some [s0 * 4 + s1 / 16, s1 % 16 * 16 + s2 / 4] else none
          else
            match b64DecVal c3, b64DecodeCodes t with
            | some s3, some bs =>
              some ((s0 * 4 + s1 / 16) :: (s1 % 16 * 16 + s2 / 4) :: (s2 % 4 * 64 + s3) :: bs)
            | _, _ => none
        | none => none
    | _, _ => none
  | _ => none

/-! ## `_encode_bytes` (rdb_to_json.py lines 58-74) -/

/-- The `{"encoding": ..., "data": ...}` object produced by `_encode_bytes`.
`data` models the Python `str`: the decoded code points for `"utf-8"`, the
base64 character codes for `"base64"`. -/
structure EncodedBytes where
  encoding : String
  data : List Nat
deriving DecidableEq, Repr

/-- `_encode_bytes` on a (non-`None`) byte string: try a strict UTF-8 decode;
on success tag `"utf-8"`, on `UnicodeDecodeError` tag `"base64"`. -/
def encodeBytes (B : List Nat) : EncodedBytes :=
  match utf8Decode B with
  | some cps => ⟨"utf-8", cps⟩
  | none => ⟨"base64", b64EncodeCodes B⟩

/-- `_encode_bytes` including the `None` passthrough. -/
def encodeBytesOpt (B : Option (List Nat)) : Option EncodedBytes :=
  B.map encodeBytes

/-- Recover the original byte string from an `EncodedBytes` object by decoding
`data` per `encoding`: UTF-8-encode the text for `"utf-8"`, base64-decode it
for `"base64"`. -/
def decodeEncodedBytes (e : EncodedBytes) : Option (List Nat) :=
  if e.encoding = "utf-8" then some (utf8Encode e.data)
  else if e.encoding = "base64" then b64DecodeCodes e.data
  else none


/-! ## `_read_key_entry` (rdb_to_json.py lines 182-242)

The redis client is modelled as a record of per-key query functions; each
query either returns a value or raises (`Except.error` carrying `str(e)`).
Type names are modelled post-decoding as `String` (the six dispatch tags are
pure ASCII).
-/

/-- The per-key queries `_read_key_entry` can issue against the live store. -/
structure Conn where
  typeQ : List Nat → Except String String
  pttlQ : List Nat → Except String Int
  getQ : List Nat → Except String (Option (List Nat))
  hgetallQ : List Nat → Except String (List (List Nat × List Nat))
  lrangeQ : List Nat → Except String (List (List Nat))
  smembersQ : List Nat → Except String (List (List Nat))
  zrangeQ : List Nat → Except String (List (List Nat × Int))
  xrangeQ : List Nat → Except String (List (List Nat × List (List Nat × List Nat)))
  dumpQ : List Nat → Except String (Option (List Nat))

/-- A `{"field": ..., "value": ...}` pair (hash items, stream fields). -/
structure FieldVal where
  field : EncodedBytes
  value : EncodedBytes
deriving DecidableEq, Repr

/-- A `{"member": ..., "score": ...}` sorted-set item.  Scores carry no
claims here, so they are kept as the opaque integers the model store serves. -/
structure ZMember where
  member : EncodedBytes
  score : Int
deriving DecidableEq, Repr

/-- A `{"id": ..., "fields": ...}` stream item. -/
structure StreamItem where
  id : EncodedBytes
  fields : List FieldVal
deriving DecidableEq, Repr

/-- The type-dependent `value` shapes of a key record. -/
inductive RValue where
  | str (v : Option EncodedBytes)
  | hash (pairs : List FieldVal)
  | list (items : List EncodedBytes)
  | set (items : List EncodedBytes)
  | zset (items : List ZMember)
  | stream (items : List StreamItem)
  | dump (encoding : String) (data : Option (List Nat))
deriving DecidableEq, Repr

/-- One exported key record.  `value`/`error` are `none` when the
corresponding dictionary key is absent. -/
structure KeyEntry where
  key : EncodedBytes
  keyType : String
  ttl_ms : Option Int
  value : Option RValue
  error : Option String
deriving DecidableEq, Repr

/-- Python `bytes` ordering (lexicographic by byte value), as used by
`vals.sort()` on a list of `bytes`. -/
def bytesLe : List Nat → List Nat → Bool
  | [], _ => true
  | _ :: _, [] => false
  | a :: as, b :: bs => if a < b then true else if b < a then false else bytesLe as bs

/-- Lines 189-194: `ttl_ms = None if pttl < 0 else pttl`, with any exception
from the `PTTL` query caught and mapped to `None`. -/
def ttlOf (r : Conn) (key : List Nat) : Option Int :=
  match r.pttlQ key with
  | .ok pttl => if pttl < 0 then none else some pttl
  | .error _ => none

/-- Lines 202-238: the type dispatch retrieving and encoding the value.
An `Except.error` models an exception escaping the `try` block. -/
def valueResult (r : Conn) (key : List Nat) (t : String) : Except String RValue :=
  if t = "string" then (r.getQ key).map (fun v => .str (encodeBytesOpt v))
  else if t = "hash" then
    (r.hgetallQ key).map (fun m => .hash (m.map (fun p => ⟨encodeBytes p.1, encodeBytes p.2⟩)))
  else if t = "list" then (r.lrangeQ key).map (fun vs => .list (vs.map encodeBytes))
  else if t = "set" then
    (r.smembersQ key).map (fun vs => .set ((vs.mergeSort bytesLe).map encodeBytes))
  else if t = "zset" then
    (r.zrangeQ key).map (fun vs => .zset (vs.map (fun p => ⟨encodeBytes p.1, p.2⟩)))
  else if t = "stream" then
    (r.xrangeQ key).map (fun its => .stream (its.map (fun it =>
      ⟨encodeBytes it.1, it.2.map (fun p => ⟨encodeBytes p.1, encodeBytes p.2⟩)⟩)))
  else
    (r.dumpQ key).map (fun payload => .dump "redis-dump-base64" (payload.map b64EncodeCodes))

/-- The record built once the type tag is known (lines 196-242): a caught
value-dispatch exception becomes the `error` field and `value` stays absent. -/
def read_key_entry_total (r : Conn) (key : List Nat) (t : String) : KeyEntry :=
  match valueResult r key t with
  | .ok v => ⟨encodeBytes key, t, ttlOf r key, some v, none⟩
  | .error e => ⟨encodeBytes key, t, ttlOf r key, none, some e⟩

/-- `_read_key_entry`.  The `TYPE` query (line 183) sits outside every
`try`, so its exception propagates as `Except.error`; the value dispatch is
wrapped (lines 202-240) and its exception becomes the record's `error`. -/
def read_key_entry (r : Conn) (key : List Nat) : Except String KeyEntry :=
  match r.typeQ key with
  | .error e => .error e
  | .ok t => .ok (read_key_entry_total r key t)

/-- The type tag served for a key (defaulting to `""` where the query fails;
only used under the hypothesis that it succeeds). -/
def typeTagOf (r : Conn) (key : List Nat) : String :=
  match r.typeQ key with
  | .ok t => t
  | .error _ => ""


/-- The per-database entry loop of `export_rdb_to_json` (lines 290-292):
entries accumulate in key order; an exception escaping `_read_key_entry`
aborts the whole export. -/
def exportEntries (r : Conn) : List (List Nat) → Except String (List KeyEntry)
  | [] => .ok []
  | k :: ks =>
    match read_key_entry r k with
    | .error e => .error e
    | .ok e =>
      match exportEntries r ks with
      | .error e2 => .error e2
      | .ok es => .ok (e :: es)

/-! ## Startup / teardown skeleton of `export_rdb_to_json` (lines 245-307)

Control flow and resource events of one export call, over an environment
describing how the world responds.  Python exceptions are `(class, message)`
pairs.
-/

/-- A Python exception, by class name and message. -/
structure PyErr where
  cls : String
  msg : String
deriving DecidableEq, Repr

/-- Observable resource events of one export call. -/
inductive Ev where
  | probeVersion
  | launch
  | netProbe
  | terminate
  | waitGrace
  | kill
  | rmTmpDir
deriving DecidableEq, Repr

/-- How the environment responds to one export call:
`version = none` models `FileNotFoundError` from invoking the binary;
`copyOk = false` models `_start_redis_for_rdb` raising before `Popen`;
`ready = false` models the 20 s readiness poll timing out;
`procExitedBeforeTeardown` is `poll() is not None` in the `finally` block;
`diesOnTerminate` is whether `wait(timeout=5)` returns within the grace
period; `body` is the outcome of the scan/read/write body. -/
structure World where
  rdbExists : Bool
  version : Option String
  copyOk : Bool
  ready : Bool
  procExitedBeforeTeardown : Bool
  diesOnTerminate : Bool
  body : Except PyErr Unit

/-- The `finally` block (lines 297-307): terminate if still running, wait a
bounded grace period, kill on timeout or any exception. -/
def teardownEvents (w : World) : List Ev :=
  if w.procExitedBeforeTeardown then []
  else if w.diesOnTerminate then [.terminate, .waitGrace]
  else [.terminate, .waitGrace, .kill]

/-- The startup / body / teardown skeleton of `export_rdb_to_json`:
result of the call plus the ordered resource events it performed. -/
def export_rdb_to_json (w : World) : Except PyErr Unit × List Ev :=
  if w.rdbExists = false then (.error ⟨"FileNotFoundError", "rdb_path"⟩, [])
  else
    match w.version with
    | none =>
      (.error ⟨"RuntimeError",
        "Could not run redis-server. Install Redis or pass --redis-server"⟩,
        [.probeVersion])
    | some ver =>
      if w.copyOk = false then
        (.error ⟨"OSError", "copy failed"⟩, [.probeVersion, .rmTmpDir])
      else
        let bodyRes : Except PyErr Unit :=
          if w.ready = false then
            .error ⟨"RuntimeError",
              "Failed to start redis-server or load the RDB. redis-server version: " ++ ver⟩
          else w.body
        (bodyRes, [.probeVersion, .launch, .netProbe] ++ teardownEvents w ++ [.rmTmpDir])

/-- The server process was actually spawned during the call. -/
def procSpawned (w : World) : Bool :=
  w.rdbExists && w.version.isSome && w.copyOk

/-- The temporary working directory was created during the call. -/
def tmpCreated (w : World) : Bool :=
  w.rdbExists && w.version.isSome

/-- Derived: the spawned process is still alive when the call returns
(it was spawned, had not already exited, survived the grace period,
and was never force-killed). -/
def procAliveAtEnd (w : World) : Bool :=
  procSpawned w && !w.procExitedBeforeTeardown && !w.diesOnTerminate &&
    !((export_rdb_to_json w).2.contains .kill)

/-! ## `dump_to_conversations.py`

JSON values are modelled by `J`; `json.loads` is an uninterpreted parameter
(`parse`), `none` modelling a parse exception.
-/

/-- A JSON value (Python object as produced by `json.load`). -/
inductive J where
  | null
  | bool (b : Bool)
  | num (n : Int)
  | str (s : String)
  | arr (xs : List J)
  | obj (kvs : List (String × J))

/-- Python `dict.get`: the value for `k`, last binding winning. -/
def dictGet (kvs : List (String × J)) (k : String) : Option J :=
  (kvs.reverse.find? (fun p => p.1 == k)).map (fun p => p.2)

/-- `_get_key_string` (lines 29-41). -/
def getKeyString (kvs : List (String × J)) : Option String :=
  match dictGet kvs "key" with
  | some (J.obj kobj) =>
    (match dictGet kobj "encoding", dictGet kobj "data" with
     | some (J.str e), some (J.str d) =>
       if e = "utf-8" then some d
       else if e = "base64" then some ("base64:" ++ d)
       else none
     | _, _ => none)
  | some (J.str s) => some s
  | _ => none

/-- `_get_utf8_value_string` (lines 44-52). -/
def getUtf8ValueString (kvs : List (String × J)) : Option String :=
  match dictGet kvs "value" with
  | some (J.obj vobj) =>
    (match dictGet vobj "encoding", dictGet vobj "data" with
     | some (J.str e), some (J.str d) => if e = "utf-8" then some d else none
     | _, _ => none)
  | _ => none

/-- `_looks_like_conversation` (lines 55-63): a non-empty JSON array whose
first (at most) 10 elements include at least one object with both a
`"role"` and a `"content"` key. -/
def looksLikeConversation : J → Bool
  | J.arr xs =>
    !xs.isEmpty &&
      (xs.take 10).any (fun it =>
        match it with
        | J.obj kvs => (dictGet kvs "role").isSome && (dictGet kvs "content").isSome
        | _ => false)
  | _ => false

/-- The key pattern `chat:session_`, as characters. -/
def sessionPat : List Char := String.toList "chat:session_"

/-- Python `re.match` semantics of `^chat:session_(?P<sid>.+)$` applied to
the part after the prefix: `.` does not match a newline and `$` also matches
just before a single trailing newline, so the remainder must be non-empty,
contain no newline except possibly one at the very end, and a trailing
newline is excluded from the captured group. -/
def sessionSidChars (l : List Char) : Option (List Char) :=
  if l.contains '\n' then
    (if l.getLast? = some '\n' ∧ l.dropLast ≠ [] ∧ l.dropLast.contains '\n' = false
     then some l.dropLast else none)
  else if l = [] then none else some l

/-- `_SESSION_KEY_RE.match` (line 26): the captured `sid` group, if any. -/
def sessionMatch (s : String) : Option String :=
  let sl := s.toList
  if sessionPat.isPrefixOf sl then
    (sessionSidChars (sl.drop sessionPat.length)).map (fun l => ⟨l⟩)
  else none

/-- What the filter's main loop does with one entry. -/
inductive Outcome where
  | emit (sid : String) (conv : J)
  | skip
  | notSessionKey
  | parsedFail
  | notConversation

/-- The body of the `for entry in entries` loop (lines 85-116). -/
def processEntry (parse : String → Option J) (entry : J) : Outcome :=
  match entry with
  | J.obj kvs =>
    (match getKeyString kvs with
     | none => .skip
     | some ks =>
       if ks = "" then .skip
       else
         match sessionMatch ks with
         | none => .notSessionKey
         | some sid =>
           match getUtf8ValueString kvs with
           | none => .skip
           | some raw =>
             match parse raw with
             | none => .parsedFail
             | some parsed =>
               if looksLikeConversation parsed then .emit sid parsed
               else .notConversation)
  | _ => .skip

/-- The skip counters printed by the filter. -/
structure Counters where
  skipped : Nat
  notSessionKey : Nat
  parsedFail : Nat
  notConversation : Nat
deriving DecidableEq, Repr

/-- The filter's loop over the entries list: ordered output plus counters. -/
def filterEntries (parse : String → Option J) : List J → List (String × J) × Counters
  | [] => ([], ⟨0, 0, 0, 0⟩)
  | e :: es =>
    let rec_ := filterEntries parse es
    match processEntry parse e with
    | .emit sid conv => ((sid, conv) :: rec_.1, rec_.2)
    | .skip => (rec_.1, { rec_.2 with skipped := rec_.2.skipped + 1 })
    | .notSessionKey => (rec_.1, { rec_.2 with notSessionKey := rec_.2.notSessionKey + 1 })
    | .parsedFail => (rec_.1, { rec_.2 with parsedFail := rec_.2.parsedFail + 1 })
    | .notConversation =>
      (rec_.1, { rec_.2 with notConversation := rec_.2.notConversation + 1 })

/-- `doc.get("db", {})` etc.: dictionary lookup with a default, raising
`AttributeError` on a non-dict (`Except.error`). -/
def pyDictGet (d : J) (k : String) (dflt : J) : Except String J :=
  match d with
  | J.obj kvs => .ok ((dictGet kvs k).getD dflt)
  | _ => .error "AttributeError"

/-- Line 75: `doc.get("db", {}).get("0", {}).get("entries", [])`. -/
def extractEntries (doc : J) : Except String J :=
  match pyDictGet doc "db" (J.obj []) with
  | .error e => .error e
  | .ok dbs =>
    match pyDictGet dbs "0" (J.obj []) with
    | .error e => .error e
    | .ok db0 => pyDictGet db0 "entries" (J.arr [])

/-- `main` of `dump_to_conversations.py` after `json.load`: extract the
database-0 entries (must be a list, line 76-77) and run the filter loop. -/
def filterMain (parse : String → Option J) (doc : J) :
    Except String (List (String × J) × Counters) :=
  match extractEntries doc with
  | .error e => .error e
  | .ok (J.arr entries) => .ok (filterEntries parse entries)
  | .ok _ => .error "Unexpected input: entries is not a list"

/-- The exception class of a call result, if it failed. -/
def errClass : Except PyErr Unit → Option String
  | .error e => some e.cls
  | .ok _ => none

/-! ## Concrete environments used by witnesses and counterexamples -/

/-- A store whose every key is a live `"string"` key `b"hi"` with a
1500 ms lifetime. -/
def connOkString : Conn where
  typeQ := fun _ => .ok "string"
  pttlQ := fun _ => .ok 1500
  getQ := fun _ => .ok (some [104, 105])
  hgetallQ := fun _ => .ok []
  lrangeQ := fun _ => .ok []
  smembersQ := fun _ => .ok []
  zrangeQ := fun _ => .ok []
  xrangeQ := fun _ => .ok []
  dumpQ := fun _ => .ok none

/-- A store whose `TYPE` query raises `"boom"` for key `[107, 49]` and
otherwise behaves like `connOkString`. -/
def connTypeBoom : Conn :=
  { connOkString with typeQ := fun k => if k = [107, 49] then .error "boom" else .ok "string" }

/-- A store whose `GET` raises `"valboom"` for every key. -/
def connValueBoom : Conn :=
  { connOkString with getQ := fun _ => .error "valboom" }

/-- A store reporting a remaining lifetime of exactly 0 ms. -/
def connPttlZero : Conn :=
  { connOkString with pttlQ := fun _ => .ok 0 }

/-- A store serving an unknown type tag `"module-x"` whose `DUMP` payload is
`bytes([1, 2, 3])`, with no expiry. -/
def connUnknown : Conn :=
  { connOkString with
      typeQ := fun _ => .ok "module-x"
      pttlQ := fun _ => .ok (-1)
      dumpQ := fun _ => .ok (some [1, 2, 3]) }

/-- A store serving a two-member set in one iteration order. -/
def connSetA : Conn :=
  { connOkString with
      typeQ := fun _ => .ok "set"
      pttlQ := fun _ => .ok (-1)
      smembersQ := fun _ => .ok [[2], [1]] }

/-- The same set served in the opposite iteration order. -/
def connSetB : Conn :=
  { connSetA with smembersQ := fun _ => .ok [[1], [2]] }

/-- A minimal conversation value: `[{"role": "user", "content": "hi"}]`. -/
def convSample : J := J.arr [J.obj [("role", J.str "user"), ("content", J.str "hi")]]

/-- A parse stub standing in for `json.loads`, always succeeding with
`convSample`. -/
def parseConst : String → Option J := fun _ => some convSample

/-- An entry whose key string ends in a newline: `"chat:session_a\n"`. -/
def entryNl : J :=
  J.obj [("key", J.obj [("encoding", J.str "utf-8"), ("data", J.str "chat:session_a\n")]),
    ("value", J.obj [("encoding", J.str "utf-8"), ("data", J.str "[]")])]

/-- A well-formed session entry with key `"chat:session_abc"`. -/
def entryGood : J :=
  J.obj [("key", J.obj [("encoding", J.str "utf-8"), ("data", J.str "chat:session_abc")]),
    ("value", J.obj [("encoding", J.str "utf-8"), ("data", J.str "x")])]

/-- A document whose database `"0"` holds `[entryGood]`, plus an unrelated
database `"1"`. -/
def docA : J :=
  J.obj [("meta", J.str "m"),
    ("db", J.obj [("0", J.obj [("entries", J.arr [entryGood])]),
      ("1", J.obj [("entries", J.arr [entryNl])])])]

/-- The same database-`"0"` entries with no other databases. -/
def docB : J :=
  J.obj [("db", J.obj [("0", J.obj [("entries", J.arr [entryGood])])])]

/-- Claim C5 as the spec states it: the filter emits `(sid, conv)` for a
record exactly when the record's key string is `"chat:session_" ++ sid`
(the session id being the remainder after the prefix), its value is a
utf-8 string whose text parses as JSON, and the parsed value looks like a
conversation. -/
def specEmitCond (parse : String → Option J) (entry : J) (sid : String) (conv : J) : Prop :=
  ∃ kvs, entry = J.obj kvs ∧
    getKeyString kvs = some ("chat:session_" ++ sid) ∧
    (∃ raw, getUtf8ValueString kvs = some raw ∧ parse raw = some conv) ∧
    looksLikeConversation conv = true

theorem isCont_bounds {c : Nat} (h : isCont c = true) : 128 ≤ c ∧ c < 192 := by
  simpa [isCont] using h

theorem cont3ok_bounds {b c1 : Nat} (h : cont3ok b c1 = true) :
    128 ≤ c1 ∧ c1 < 192 ∧ (b = 224 → 160 ≤ c1) := by
  unfold cont3ok at h
  split at h
  next hb =>
    simp only [Bool.and_eq_true, decide_eq_true_eq] at h
    exact ⟨by omega, by omega, fun _ => by omega⟩
  next hb =>
    split at h
    next hb7 =>
      simp only [Bool.and_eq_true, decide_eq_true_eq] at h
      exact ⟨by omega, by omega, fun hb0 => absurd hb0 hb⟩
    next hb7 =>
      have := isCont_bounds h
      exact ⟨this.1, this.2, fun hb0 => absurd hb0 hb⟩

theorem cont4ok_bounds {b c1 : Nat} (h : cont4ok b c1 = true) :
    128 ≤ c1 ∧ c1 < 192 ∧ (b = 240 → 144 ≤ c1) := by
  unfold cont4ok at h
  split at h
  next hb =>
    simp only [Bool.and_eq_true, decide_eq_true_eq] at h
    exact ⟨by omega, by omega, fun _ => by omega⟩
  next hb =>
    split at h
    next hb4 =>
      simp only [Bool.and_eq_true, decide_eq_true_eq] at h
      exact ⟨by omega, by omega, fun hb0 => absurd hb0 hb⟩
    next hb4 =>
      have := isCont_bounds h
      exact ⟨this.1, this.2, fun hb0 => absurd hb0 hb⟩

/-- Decoding one code point and re-encoding it reproduces the consumed bytes. -/
theorem utf8DecodeOne_spec {b : Nat} {rest : List Nat} {cp k : Nat}
    (h : utf8DecodeOne b rest = some (cp, k)) :
    k ≤ rest.length ∧ utf8EncodeChar cp = b :: rest.take k := by
  unfold utf8DecodeOne at h
  by_cases h1 : b < 128
  · simp only [if_pos h1, Option.some.injEq, Prod.mk.injEq] at h
    obtain ⟨hcp, hk⟩ := h
    subst hcp
    subst hk
    exact ⟨Nat.zero_le _, by simp [utf8EncodeChar, h1]⟩
  · rw [if_neg h1] at h
    by_cases h2 : b < 194
    · simp [h2] at h
    · rw [if_neg h2] at h
      by_cases h3 : b ≤ 223
      · rw [if_pos h3] at h
        match rest with
        | [] => simp at h
        | c1 :: tl =>
          by_cases hc1 : isCont c1 = true
          · simp only [if_pos hc1, Option.some.injEq, Prod.mk.injEq] at h
            obtain ⟨hcp, hk⟩ := h
            subst hcp
            subst hk
            obtain ⟨hl, hr⟩ := isCont_bounds hc1
            refine ⟨by simp, ?_⟩
            have hge : ¬ (b - 192) * 64 + (c1 - 128) < 128 := by omega
            have hlt : (b - 192) * 64 + (c1 - 128) < 2048 := by omega
            simp only [utf8EncodeChar, if_neg hge, if_pos hlt, List.take_succ_cons,
              List.take_zero]
            have e1 : 192 + ((b - 192) * 64 + (c1 - 128)) / 64 = b := by omega
            have e2 : 128 + ((b - 192) * 64 + (c1 - 128)) % 64 = c1 := by omega
            rw [e1, e2]
          · simp [hc1] at h
      · rw [if_neg h3] at h
        by_cases h4 : b ≤ 239
        · rw [if_pos h4] at h
          match rest with
          | [] => simp at h
          | [c1] => simp at h
          | c1 :: c2 :: tl =>
            by_cases hok : (cont3ok b c1 && isCont c2) = true
            · simp only [if_pos hok, Option.some.injEq, Prod.mk.injEq] at h
              obtain ⟨hcp, hk⟩ := h
              subst hcp
              subst hk
              rw [Bool.and_eq_true] at hok
              obtain ⟨hb1, hb2, hb3⟩ := cont3ok_bounds hok.1
              obtain ⟨hd1, hd2⟩ := isCont_bounds hok.2
              refine ⟨by simp, ?_⟩
              set cp := (b - 224) * 4096 + (c1 - 128) * 64 + (c2 - 128) with hcp
              have hge : ¬ cp < 128 := by omega
              have hge2 : ¬ cp < 2048 := by omega
              have hlt : cp < 65536 := by omega
              simp only [utf8EncodeChar, if_neg hge, if_neg hge2, if_pos hlt,
                List.take_succ_cons, List.take_zero]
              have e1 : 224 + cp / 4096 = b := by omega
              have e2 : 128 + cp / 64 % 64 = c1 := by omega
              have e3 : 128 + cp % 64 = c2 := by omega
              rw [e1, e2, e3]
            · simp [hok] at h
        · rw [if_neg h4] at h
          by_cases h5 : b ≤ 244
          · rw [if_pos h5] at h
            match rest with
            | [] => simp at h
            | [c1] => simp at h
            | [c1, c2] => simp at h
            | c1 :: c2 :: c3 :: tl =>
              by_cases hok : (cont4ok b c1 && isCont c2 && isCont c3) = true
              · simp only [if_pos hok, Option.some.injEq, Prod.mk.injEq] at h
                obtain ⟨hcp, hk⟩ := h
                subst hcp
                subst hk
                rw [Bool.and_eq_true, Bool.and_eq_true] at hok
                obtain ⟨hb1, hb2, hb3⟩ := cont4ok_bounds hok.1.1
                obtain ⟨hd1, hd2⟩ := isCont_bounds hok.1.2
                obtain ⟨hf1, hf2⟩ := isCont_bounds hok.2
                refine ⟨by simp, ?_⟩
                set cp := (b - 240) * 262144 + (c1 - 128) * 4096 + (c2 - 128) * 64 +
                  (c3 - 128) with hcp
                have hge : ¬ cp < 128 := by omega
                have hge2 : ¬ cp < 2048 := by omega
                have hge3 : ¬ cp < 65536 := by omega
                simp only [utf8EncodeChar, if_neg hge, if_neg hge2, if_neg hge3,
                  List.take_succ_cons, List.take_zero]
                have e1 : 240 + cp / 262144 = b := by omega
                have e2 : 128 + cp / 4096 % 64 = c1 := by omega
                have e3 : 128 + cp / 64 % 64 = c2 := by omega
                have e4 : 128 + cp % 64 = c3 := by omega
                rw [e1, e2, e3, e4]
              · simp [hok] at h
          · simp [h5] at h


theorem utf8Encode_nil : utf8Encode [] = [] := rfl

theorem utf8Encode_cons (c : Nat) (cs : List Nat) :
    utf8Encode (c :: cs) = utf8EncodeChar c ++ utf8Encode cs := by
  simp [utf8Encode]

/-- Re-encoding a strict UTF-8 decode reproduces the original byte string. -/
theorem utf8Encode_utf8Decode :
    ∀ (B cps : List Nat), utf8Decode B = some cps → utf8Encode cps = B
  | [], cps => by
    intro h
    unfold utf8Decode at h
    simp only [Option.some.injEq] at h
    subst h
    exact utf8Encode_nil
  | b :: rest, cps => by
    intro h
    unfold utf8Decode at h
    cases hone : utf8DecodeOne b rest with
    | none => rw [hone] at h; simp at h
    | some v =>
      obtain ⟨cp, k⟩ := v
      rw [hone] at h
      simp only [Option.map_eq_some'] at h
      obtain ⟨cs, hdec, hcps⟩ := h
      obtain ⟨hk, henc⟩ := utf8DecodeOne_spec hone
      have ih := utf8Encode_utf8Decode (rest.drop k) cs hdec
      subst hcps
      rw [utf8Encode_cons, ih, henc]
      simp [List.take_append_drop]
  termination_by B => B.length
  decreasing_by simp only [List.length_cons, List.length_drop]; omega


theorem b64DecVal_b64Char : ∀ n : Nat, n < 64 → b64DecVal (b64Char n) = some n := by decide

theorem b64Char_ne_pad : ∀ n : Nat, n < 64 → ¬ b64Char n = 61 := by decide

/-- Base64 round-trip: decoding the encoding of any byte string gives it back. -/
theorem b64_roundtrip : ∀ B : List Nat, (∀ x ∈ B, x < 256) →
    b64DecodeCodes (b64EncodeCodes B) = some B
  | [] => by intro _; rfl
  | [a] => by
    intro hb
    have ha : a < 256 := hb a (by simp)
    have h0 : a / 4 < 64 := by omega
    have h1 : a % 4 * 16 < 64 := by omega
    simp only [b64EncodeCodes, b64DecodeCodes, b64DecVal_b64Char _ h0,
      b64DecVal_b64Char _ h1, if_pos rfl, and_self, ite_true, Option.some.injEq]
    simp only [List.cons.injEq, and_true]
    omega
  | [a, b] => by
    intro hb
    have ha : a < 256 := hb a (by simp)
    have hbb : b < 256 := hb b (by simp)
    have h0 : a / 4 < 64 := by omega
    have h1 : a % 4 * 16 + b / 16 < 64 := by omega
    have h2 : b % 16 * 4 < 64 := by omega
    simp only [b64EncodeCodes, b64DecodeCodes, b64DecVal_b64Char _ h0,
      b64DecVal_b64Char _ h1, b64DecVal_b64Char _ h2, if_neg (b64Char_ne_pad _ h2),
      if_pos rfl, ite_true, Option.some.injEq]
    simp only [List.cons.injEq, and_true]
    omega
  | a :: b :: c :: t => by
    intro hb
    have ha : a < 256 := hb a (by simp)
    have hbb : b < 256 := hb b (by simp)
    have hc : c < 256 := hb c (by simp)
    have ht : ∀ x ∈ t, x < 256 := fun x hx => hb x (by simp [hx])
    have ih := b64_roundtrip t ht
    have h0 : a / 4 < 64 := by omega
    have h1 : a % 4 * 16 + b / 16 < 64 := by omega
    have h2 : b % 16 * 4 + c / 64 < 64 := by omega
    have h3 : c % 64 < 64 := by omega
    simp only [b64EncodeCodes, b64DecodeCodes, b64DecVal_b64Char _ h0,
      b64DecVal_b64Char _ h1, b64DecVal_b64Char _ h2, b64DecVal_b64Char _ h3,
      if_neg (b64Char_ne_pad _ h2), if_neg (b64Char_ne_pad _ h3), ih,
      Option.some.injEq]
    simp only [List.cons.injEq, and_true]
    omega


/-- Claim C1: for every byte sequence `B`, `_encode_bytes` produces an object
whose `data` decoded per its `encoding` is exactly `B`; a byte sequence that
decodes as valid UTF-8 is tagged `"utf-8"`, every other one `"base64"`. -/
theorem C1_encode_bytes_round_trip (B : List Nat) (hB : ∀ x ∈ B, x < 256) :
    decodeEncodedBytes (encodeBytes B) = some B ∧
    (∀ cps, utf8Decode B = some cps → (encodeBytes B).encoding = "utf-8") ∧
    (utf8Decode B = none → (encodeBytes B).encoding = "base64") := by
  cases hdec : utf8Decode B with
  | some cps =>
    have he : encodeBytes B = ⟨"utf-8", cps⟩ := by simp [encodeBytes, hdec]
    rw [he]
    refine ⟨?_, ?_, ?_⟩
    · simp [decodeEncodedBytes, utf8Encode_utf8Decode B cps hdec]
    · intro _ _
      rfl
    · intro hn
      cases hn
  | none =>
    have he : encodeBytes B = ⟨"base64", b64EncodeCodes B⟩ := by simp [encodeBytes, hdec]
    rw [he]
    refine ⟨?_, ?_, ?_⟩
    · simpa [decodeEncodedBytes] using b64_roundtrip B hB
    · intro cps hn
      cases hn
    · intro _
      rfl

/-- Witness for C1 at a concrete byte string containing a NUL byte and an
invalid UTF-8 byte. -/
theorem C1_encode_bytes_round_trip_witness :
    (∀ x ∈ [104, 0, 255], x < 256) ∧
    (decodeEncodedBytes (encodeBytes [104, 0, 255]) = some [104, 0, 255] ∧
      (∀ cps, utf8Decode [104, 0, 255] = some cps →
        (encodeBytes [104, 0, 255]).encoding = "utf-8") ∧
      (utf8Decode [104, 0, 255] = none →
        (encodeBytes [104, 0, 255]).encoding = "base64")) :=
  ⟨by decide, C1_encode_bytes_round_trip [104, 0, 255] (by decide)⟩


/-! ## Evaluation helpers for concrete stores -/

theorem utf8Decode_hi : utf8Decode [104, 105] = some [104, 105] := by
  simp [utf8Decode, utf8DecodeOne]

theorem utf8Decode_h : utf8Decode [104] = some [104] := by
  simp [utf8Decode, utf8DecodeOne]

theorem encodeBytes_hi : encodeBytes [104, 105] = ⟨"utf-8", [104, 105]⟩ := by
  simp [encodeBytes, utf8Decode_hi]

theorem encodeBytes_h : encodeBytes [104] = ⟨"utf-8", [104]⟩ := by
  simp [encodeBytes, utf8Decode_h]

theorem read_connOkString (key : List Nat) :
    read_key_entry connOkString key = Except.ok
      ⟨encodeBytes key, "string", some 1500,
        some (RValue.str (some ⟨"utf-8", [104, 105]⟩)), none⟩ := by
  simp [read_key_entry, read_key_entry_total, valueResult, ttlOf, connOkString,
    encodeBytesOpt, encodeBytes_hi, Except.map]

/-! ## Claim C3 -/

/-- Claim C3: every `KeyRecord` produced by `_read_key_entry` has exactly one
of `value` / `error` set - never both, never neither. -/
theorem C3_value_error_exclusive (r : Conn) (key : List Nat) (e : KeyEntry)
    (h : read_key_entry r key = Except.ok e) :
    (e.value.isSome = true ∧ e.error = none) ∨ (e.value = none ∧ e.error.isSome = true) := by
  unfold read_key_entry at h
  cases ht : r.typeQ key with
  | error msg => rw [ht] at h; cases h
  | ok t =>
    rw [ht] at h
    simp only [Except.ok.injEq] at h
    subst h
    unfold read_key_entry_total
    cases hv : valueResult r key t with
    | ok v => simp
    | error msg => simp

/-- Witness for C3 at a concrete store and key. -/
theorem C3_value_error_exclusive_witness :
    read_key_entry connOkString [104] = Except.ok
      ⟨⟨"utf-8", [104]⟩, "string", some 1500,
        some (RValue.str (some ⟨"utf-8", [104, 105]⟩)), none⟩ ∧
    (((some (RValue.str (some ⟨"utf-8", [104, 105]⟩)) : Option RValue).isSome = true ∧
        (none : Option String) = none) ∨
      ((some (RValue.str (some ⟨"utf-8", [104, 105]⟩)) : Option RValue) = none ∧
        (none : Option String).isSome = true)) := by
  have h : read_key_entry connOkString [104] = Except.ok
      ⟨⟨"utf-8", [104]⟩, "string", some 1500,
        some (RValue.str (some ⟨"utf-8", [104, 105]⟩)), none⟩ := by
    rw [read_connOkString, encodeBytes_h]
  exact ⟨h, C3_value_error_exclusive connOkString [104] _ h⟩

/-! ## Claim C4 -/

/-- Counterexample to C4 as stated: for an unknown type tag the code stores
the opaque dump under encoding tag `"redis-dump-base64"`, not the
`"dump-base64"` the claim names. -/
theorem C4_counterexample :
    read_key_entry connUnknown [104] = Except.ok
      ⟨⟨"utf-8", [104]⟩, "module-x", none,
        some (RValue.dump "redis-dump-base64" (some (b64EncodeCodes [1, 2, 3]))), none⟩ ∧
    "redis-dump-base64" ≠ "dump-base64" := by
  constructor
  · simp [read_key_entry, read_key_entry_total, valueResult, ttlOf, connUnknown,
      connOkString, encodeBytes_h, Except.map]
  · decide

/-- Claim C4 amended: for every key whose reported type is none of the six
known tags, the record's value is `{encoding: "redis-dump-base64",
data: base64 of the serialized dump}` (`data` null if `DUMP` returned nil). -/
theorem C4_unknown_type_dump (r : Conn) (key : List Nat) (t : String)
    (ht : r.typeQ key = Except.ok t)
    (hns : t ≠ "string") (hnh : t ≠ "hash") (hnl : t ≠ "list")
    (hnset : t ≠ "set") (hnz : t ≠ "zset") (hnstr : t ≠ "stream")
    (p : Option (List Nat)) (hd : r.dumpQ key = Except.ok p) :
    read_key_entry r key = Except.ok
      ⟨encodeBytes key, t, ttlOf r key,
        some (RValue.dump "redis-dump-base64" (p.map b64EncodeCodes)), none⟩ := by
  simp only [read_key_entry, ht, read_key_entry_total, valueResult, if_neg hns,
    if_neg hnh, if_neg hnl, if_neg hnset, if_neg hnz, if_neg hnstr, hd, Except.map]

/-- Witness for the amended C4 at a concrete store. -/
theorem C4_unknown_type_dump_witness :
    connUnknown.typeQ [104] = Except.ok "module-x" ∧
    connUnknown.dumpQ [104] = Except.ok (some [1, 2, 3]) ∧
    read_key_entry connUnknown [104] = Except.ok
      ⟨encodeBytes [104], "module-x", ttlOf connUnknown [104],
        some (RValue.dump "redis-dump-base64" ((some [1, 2, 3]).map b64EncodeCodes)), none⟩ :=
  ⟨rfl, rfl,
    C4_unknown_type_dump connUnknown [104] "module-x" rfl
      (by decide) (by decide) (by decide) (by decide) (by decide) (by decide)
      (some [1, 2, 3]) rfl⟩

/-! ## Claim C6 -/

/-- Counterexample to C6 as stated: when the store reports a remaining
lifetime of exactly 0 ms, the record carries `ttl_ms = 0`, although 0 is not
a positive remaining lifetime. -/
theorem C6_counterexample :
    connPttlZero.pttlQ [104] = Except.ok 0 ∧
    read_key_entry connPttlZero [104] = Except.ok
      ⟨⟨"utf-8", [104]⟩, "string", some 0,
        some (RValue.str (some ⟨"utf-8", [104, 105]⟩)), none⟩ ∧
    ¬ (0 : Int) > 0 := by
  refine ⟨rfl, ?_, by decide⟩
  simp [read_key_entry, read_key_entry_total, valueResult, ttlOf, connPttlZero,
    connOkString, encodeBytesOpt, encodeBytes_hi, encodeBytes_h, Except.map]

/-- Claim C6 amended: `ttl_ms` is null exactly when the lifetime query fails
or reports a negative value; whenever it reports a non-negative value
(0 included) `ttl_ms` is that exact value; and the record produced by
`_read_key_entry` carries exactly this `ttl_ms`. -/
theorem C6_ttl_mapping (r : Conn) (key : List Nat) :
    (ttlOf r key = none ↔
      ((r.pttlQ key).isOk = false ∨ ∃ v, r.pttlQ key = Except.ok v ∧ v < 0)) ∧
    (∀ v : Int, r.pttlQ key = Except.ok v → 0 ≤ v → ttlOf r key = some v) ∧
    (∀ e : KeyEntry, read_key_entry r key = Except.ok e → e.ttl_ms = ttlOf r key) := by
  refine ⟨?_, ?_, ?_⟩
  · unfold ttlOf
    cases hp : r.pttlQ key with
    | ok v =>
      dsimp only
      by_cases hv : v < 0
      · rw [if_pos hv]
        exact ⟨fun _ => Or.inr ⟨v, rfl, hv⟩, fun _ => rfl⟩
      · rw [if_neg hv]
        constructor
        · intro hcon
          cases hcon
        · intro hdisj
          rcases hdisj with hbad | ⟨x, hx, hxneg⟩
          · simp [Except.isOk, Except.toBool] at hbad
          · injection hx with hx
            omega
    | error msg =>
      exact ⟨fun _ => Or.inl (by simp [Except.isOk, Except.toBool]), fun _ => rfl⟩
  · intro v hv hnn
    unfold ttlOf
    rw [hv]
    dsimp only
    rw [if_neg (by omega : ¬ v < 0)]
  · intro e he
    unfold read_key_entry at he
    cases ht : r.typeQ key with
    | error msg => rw [ht] at he; cases he
    | ok t =>
      rw [ht] at he
      simp only [Except.ok.injEq] at he
      subst he
      unfold read_key_entry_total
      cases hv : valueResult r key t <;> simp

/-- Witness for the amended C6 at a concrete store. -/
theorem C6_ttl_mapping_witness :
    (ttlOf connPttlZero [104] = none ↔
      ((connPttlZero.pttlQ [104]).isOk = false ∨
        ∃ v, connPttlZero.pttlQ [104] = Except.ok v ∧ v < 0)) ∧
    (∀ v : Int, connPttlZero.pttlQ [104] = Except.ok v → 0 ≤ v →
      ttlOf connPttlZero [104] = some v) ∧
    (∀ e : KeyEntry, read_key_entry connPttlZero [104] = Except.ok e →
      e.ttl_ms = ttlOf connPttlZero [104]) :=
  C6_ttl_mapping connPttlZero [104]


/-! ## Claim C2 -/

/-- Counterexample to C2 as stated: an exception from the `TYPE` query is not
caught - `_read_key_entry` propagates it, the loop in `export_rdb_to_json`
aborts, and neither the failing key nor the following key yields a record. -/
theorem C2_counterexample :
    exportEntries connTypeBoom [[107, 49], [107, 50]] = Except.error "boom" := by
  simp [exportEntries, read_key_entry, connTypeBoom, connOkString]

/-- Claim C2 amended: whenever the `TYPE` query succeeds for every
enumerated key, the export loop completes with exactly one record per key in
order; a key whose value retrieval raises gets `error` = the message and no
`value` (the record is still included and later keys are unaffected); a key
whose value retrieval succeeds gets `value` and no `error`; an exception in
the lifetime query alone is caught and only nulls `ttl_ms`. -/
theorem C2_per_key_isolation (r : Conn) (keys : List (List Nat))
    (h : ∀ k ∈ keys, ∃ t, r.typeQ k = Except.ok t) :
    exportEntries r keys =
      Except.ok (keys.map (fun k => read_key_entry_total r k (typeTagOf r k))) ∧
    (∀ k t msg, valueResult r k t = Except.error msg →
      (read_key_entry_total r k t).error = some msg ∧
      (read_key_entry_total r k t).value = none) ∧
    (∀ k t v, valueResult r k t = Except.ok v →
      (read_key_entry_total r k t).value = some v ∧
      (read_key_entry_total r k t).error = none) ∧
    (∀ k msg, r.pttlQ k = Except.error msg →
      ∀ t, (read_key_entry_total r k t).ttl_ms = none) := by
  refine ⟨?_, ?_, ?_, ?_⟩
  · revert h
    induction keys with
    | nil => intro _; rfl
    | cons k ks ih =>
      intro h
      obtain ⟨t, ht⟩ := h k (by simp)
      have hks : ∀ k2 ∈ ks, ∃ t2, r.typeQ k2 = Except.ok t2 :=
        fun k2 hk2 => h k2 (by simp [hk2])
      have htag : typeTagOf r k = t := by simp [typeTagOf, ht]
      simp only [exportEntries, read_key_entry, ht, ih hks, List.map_cons, htag]
  · intro k t msg hv
    unfold read_key_entry_total
    rw [hv]
    exact ⟨rfl, rfl⟩
  · intro k t v hv
    unfold read_key_entry_total
    rw [hv]
    exact ⟨rfl, rfl⟩
  · intro k msg hmsg t
    unfold read_key_entry_total
    cases hvv : valueResult r k t <;> simp [ttlOf, hmsg]

/-- Witness for the amended C2 at a store whose `GET` always raises: the
single key still yields a record and the loop returns it. -/
theorem C2_per_key_isolation_witness :
    exportEntries connValueBoom [[104]] =
      Except.ok ([[104]].map
        (fun k => read_key_entry_total connValueBoom k (typeTagOf connValueBoom k))) ∧
    (∀ k t msg, valueResult connValueBoom k t = Except.error msg →
      (read_key_entry_total connValueBoom k t).error = some msg ∧
      (read_key_entry_total connValueBoom k t).value = none) ∧
    (∀ k t v, valueResult connValueBoom k t = Except.ok v →
      (read_key_entry_total connValueBoom k t).value = some v ∧
      (read_key_entry_total connValueBoom k t).error = none) ∧
    (∀ k msg, connValueBoom.pttlQ k = Except.error msg →
      ∀ t, (read_key_entry_total connValueBoom k t).ttl_ms = none) :=
  C2_per_key_isolation connValueBoom [[104]] (fun _ _ => ⟨"string", rfl⟩)


/-! ## Claim C7 -/

theorem bytesLe_total : ∀ a b : List Nat, (bytesLe a b || bytesLe b a) = true
  | [], [] => rfl
  | [], _ :: _ => rfl
  | _ :: _, [] => rfl
  | a :: as, b :: bs => by
    simp only [bytesLe]
    by_cases h1 : a < b
    · rw [if_pos h1]
      rfl
    · by_cases h2 : b < a
      · rw [if_pos h2]
        simp [h2]
      · rw [if_neg h1, if_neg h2, if_neg h2, if_neg h1]
        exact bytesLe_total as bs

theorem bytesLe_trans : ∀ a b c : List Nat,
    bytesLe a b = true → bytesLe b c = true → bytesLe a c = true
  | [], _, _, _, _ => rfl
  | _ :: _, [], _, h1, _ => by simp [bytesLe] at h1
  | _ :: _, _ :: _, [], _, h2 => by simp [bytesLe] at h2
  | a :: as, b :: bs, c :: cs, h1, h2 => by
    simp only [bytesLe] at h1 h2 ⊢
    by_cases hab : a < b
    · by_cases hbc : b < c
      · rw [if_pos (by omega : a < c)]
      · rw [if_neg hbc] at h2
        by_cases hcb : c < b
        · rw [if_pos hcb] at h2
          simp at h2
        · rw [if_neg hcb] at h2
          rw [if_pos (by omega : a < c)]
    · rw [if_neg hab] at h1
      by_cases hba : b < a
      · rw [if_pos hba] at h1
        simp at h1
      · rw [if_neg hba] at h1
        by_cases hbc : b < c
        · rw [if_pos (by omega : a < c)]
        · rw [if_neg hbc] at h2
          by_cases hcb : c < b
          · rw [if_pos hcb] at h2
            simp at h2
          · rw [if_neg hcb] at h2
            rw [if_neg (by omega : ¬ a < c), if_neg (by omega : ¬ c < a)]
            exact bytesLe_trans as bs cs h1 h2

theorem bytesLe_antisymm : ∀ a b : List Nat,
    bytesLe a b = true → bytesLe b a = true → a = b
  | [], [], _, _ => rfl
  | [], _ :: _, _, h2 => by simp [bytesLe] at h2
  | _ :: _, [], h1, _ => by simp [bytesLe] at h1
  | a :: as, b :: bs, h1, h2 => by
    simp only [bytesLe] at h1 h2
    by_cases hab : a < b
    · rw [if_neg (by omega : ¬ b < a), if_pos hab] at h2
      simp at h2
    · rw [if_neg hab] at h1
      by_cases hba : b < a
      · rw [if_pos hba] at h1
        simp at h1
      · rw [if_neg hba] at h1
        rw [if_neg hba, if_neg hab] at h2
        have heq : as = bs := bytesLe_antisymm as bs h1 h2
        have hv : a = b := by omega
        rw [hv, heq]

/-- `mergeSort bytesLe` output is sorted by raw byte value. -/
theorem mergeSort_bytesLe_sorted (l : List (List Nat)) :
    (l.mergeSort bytesLe).Pairwise (fun a b => bytesLe a b = true) :=
  List.sorted_mergeSort (fun a b c => bytesLe_trans a b c)
    (fun a b => bytesLe_total a b) l

/-- `mergeSort bytesLe` is determined by the multiset of members. -/
theorem mergeSort_bytesLe_perm_eq {l1 l2 : List (List Nat)} (h : l1.Perm l2) :
    l1.mergeSort bytesLe = l2.mergeSort bytesLe := by
  have hp : (l1.mergeSort bytesLe).Perm (l2.mergeSort bytesLe) :=
    ((List.mergeSort_perm l1 bytesLe).trans h).trans (List.mergeSort_perm l2 bytesLe).symm
  exact @List.eq_of_perm_of_sorted _ (fun a b => bytesLe a b = true)
    ⟨fun a b hab hba => bytesLe_antisymm a b hab hba⟩ _ _ hp
    (mergeSort_bytesLe_sorted l1) (mergeSort_bytesLe_sorted l2)

/-- Claim C7: a set-typed key's value is the members sorted by raw byte
value before encoding, and two retrievals of the same member collection, in
any order, encode to identical output. -/
theorem C7_set_sort_deterministic (r1 r2 : Conn) (key1 key2 : List Nat)
    (vs1 vs2 : List (List Nat))
    (ht1 : r1.typeQ key1 = Except.ok "set") (hs1 : r1.smembersQ key1 = Except.ok vs1)
    (ht2 : r2.typeQ key2 = Except.ok "set") (hs2 : r2.smembersQ key2 = Except.ok vs2)
    (hperm : vs1.Perm vs2) :
    (∃ e1, read_key_entry r1 key1 = Except.ok e1 ∧
      e1.value = some (RValue.set ((vs1.mergeSort bytesLe).map encodeBytes)) ∧
      (vs1.mergeSort bytesLe).Pairwise (fun a b => bytesLe a b = true)) ∧
    (∀ e1 e2, read_key_entry r1 key1 = Except.ok e1 →
      read_key_entry r2 key2 = Except.ok e2 → e1.value = e2.value) := by
  have hv1 : read_key_entry r1 key1 = Except.ok
      ⟨encodeBytes key1, "set", ttlOf r1 key1,
        some (RValue.set ((vs1.mergeSort bytesLe).map encodeBytes)), none⟩ := by
    simp [read_key_entry, ht1, read_key_entry_total, valueResult, hs1, Except.map]
  have hv2 : read_key_entry r2 key2 = Except.ok
      ⟨encodeBytes key2, "set", ttlOf r2 key2,
        some (RValue.set ((vs2.mergeSort bytesLe).map encodeBytes)), none⟩ := by
    simp [read_key_entry, ht2, read_key_entry_total, valueResult, hs2, Except.map]
  refine ⟨⟨_, hv1, rfl, mergeSort_bytesLe_sorted vs1⟩, ?_⟩
  intro e1 e2 he1 he2
  rw [hv1] at he1
  rw [hv2] at he2
  injection he1 with he1
  injection he2 with he2
  subst he1
  subst he2
  simp only [mergeSort_bytesLe_perm_eq hperm]

/-- Witness for C7 at two stores serving the same two-member set in
opposite orders. -/
theorem C7_set_sort_deterministic_witness :
    (∃ e1, read_key_entry connSetA [104] = Except.ok e1 ∧
      e1.value = some (RValue.set ((([[2], [1]] : List (List Nat)).mergeSort bytesLe).map
        encodeBytes)) ∧
      (([[2], [1]] : List (List Nat)).mergeSort bytesLe).Pairwise
        (fun a b => bytesLe a b = true)) ∧
    (∀ e1 e2, read_key_entry connSetA [104] = Except.ok e1 →
      read_key_entry connSetB [104] = Except.ok e2 → e1.value = e2.value) :=
  C7_set_sort_deterministic connSetA connSetB [104] [104] [[2], [1]] [[1], [2]]
    rfl rfl rfl rfl (List.Perm.swap [1] [2] [])

/-! ## Claim C9 -/

/-- Counterexample to C9 as stated: the binary-not-found failure and the
readiness-timeout failure carry the same exception class `RuntimeError` -
they are distinguished by message text, not by failure class. -/
theorem C9_counterexample :
    errClass (export_rdb_to_json ⟨true, none, true, true, false, false, Except.ok ()⟩).1 =
      some "RuntimeError" ∧
    errClass (export_rdb_to_json
      ⟨true, some "v7", true, false, false, false, Except.ok ()⟩).1 =
      some "RuntimeError" := ⟨rfl, rfl⟩

/-- Claim C9 amended: if the server executable cannot be invoked, the export
raises a `RuntimeError` (the same exception class as the readiness-timeout
failure, distinguished only by message) before the server process is
launched and before any network probe. -/
theorem C9_binary_not_found (w : World) (h1 : w.rdbExists = true)
    (h2 : w.version = none) :
    export_rdb_to_json w =
      (Except.error ⟨"RuntimeError",
        "Could not run redis-server. Install Redis or pass --redis-server"⟩,
        [Ev.probeVersion]) ∧
    Ev.launch ∉ (export_rdb_to_json w).2 ∧
    Ev.netProbe ∉ (export_rdb_to_json w).2 := by
  have he : export_rdb_to_json w =
      (Except.error ⟨"RuntimeError",
        "Could not run redis-server. Install Redis or pass --redis-server"⟩,
        [Ev.probeVersion]) := by
    unfold export_rdb_to_json
    rw [h1, h2]
    simp
  rw [he]
  exact ⟨rfl, by decide, by decide⟩

/-- Witness for the amended C9 at a concrete environment. -/
theorem C9_binary_not_found_witness :
    export_rdb_to_json ⟨true, none, true, true, false, false, Except.ok ()⟩ =
      (Except.error ⟨"RuntimeError",
        "Could not run redis-server. Install Redis or pass --redis-server"⟩,
        [Ev.probeVersion]) ∧
    Ev.launch ∉ (export_rdb_to_json
      ⟨true, none, true, true, false, false, Except.ok ()⟩).2 ∧
    Ev.netProbe ∉ (export_rdb_to_json
      ⟨true, none, true, true, false, false, Except.ok ()⟩).2 :=
  C9_binary_not_found ⟨true, none, true, true, false, false, Except.ok ()⟩ rfl rfl

/-! ## Claim C10 -/

/-- Claim C10: on every exit path of one export call, if the temp directory
was created it is removed; if the spawned process is still running at scope
exit it is asked to terminate with a bounded grace period and force-killed
when it survives the grace period; and the process is never alive when the
call returns. -/
theorem C10_teardown_unconditional (w : World) :
    (tmpCreated w = true → Ev.rmTmpDir ∈ (export_rdb_to_json w).2) ∧
    (procSpawned w = true → w.procExitedBeforeTeardown = false →
      Ev.terminate ∈ (export_rdb_to_json w).2 ∧
      Ev.waitGrace ∈ (export_rdb_to_json w).2 ∧
      (w.diesOnTerminate = false → Ev.kill ∈ (export_rdb_to_json w).2)) ∧
    procAliveAtEnd w = false := by
  obtain ⟨rdb, ver, copy, ready, exited, dies, body⟩ := w
  cases rdb <;> cases copy <;> cases exited <;> cases dies <;> cases ver <;>
    simp [export_rdb_to_json, teardownEvents, tmpCreated, procSpawned, procAliveAtEnd]

/-- Witness for C10 on the path where the body raises and the process
survives the grace period. -/
theorem C10_teardown_unconditional_witness :
    (tmpCreated ⟨true, some "v7", true, true, false, false,
        Except.error ⟨"ValueError", "x"⟩⟩ = true →
      Ev.rmTmpDir ∈ (export_rdb_to_json ⟨true, some "v7", true, true, false, false,
        Except.error ⟨"ValueError", "x"⟩⟩).2) ∧
    (procSpawned ⟨true, some "v7", true, true, false, false,
        Except.error ⟨"ValueError", "x"⟩⟩ = true →
      (⟨true, some "v7", true, true, false, false,
        Except.error ⟨"ValueError", "x"⟩⟩ : World).procExitedBeforeTeardown = false →
      Ev.terminate ∈ (export_rdb_to_json ⟨true, some "v7", true, true, false, false,
        Except.error ⟨"ValueError", "x"⟩⟩).2 ∧
      Ev.waitGrace ∈ (export_rdb_to_json ⟨true, some "v7", true, true, false, false,
        Except.error ⟨"ValueError", "x"⟩⟩).2 ∧
      ((⟨true, some "v7", true, true, false, false,
        Except.error ⟨"ValueError", "x"⟩⟩ : World).diesOnTerminate = false →
        Ev.kill ∈ (export_rdb_to_json ⟨true, some "v7", true, true, false, false,
          Except.error ⟨"ValueError", "x"⟩⟩).2)) ∧
    procAliveAtEnd ⟨true, some "v7", true, true, false, false,
      Except.error ⟨"ValueError", "x"⟩⟩ = false :=
  C10_teardown_unconditional ⟨true, some "v7", true, true, false, false,
    Except.error ⟨"ValueError", "x"⟩⟩


/-! ## Claim C5 -/

/-- Claim C5 amended: the filter emits `(sid, conv)` for a record iff the
record is an object whose key string is non-empty and matches the session
regex with captured group `sid` (Python semantics: the remainder after
`chat:session_` must be non-empty and newline-free except for an optional
single trailing newline, which is excluded from `sid`), whose value is a
utf-8 string that parses as JSON, and whose parsed value looks like a
conversation. -/
theorem C5_filter_emit_iff (parse : String → Option J) (entry : J)
    (sid : String) (conv : J) :
    processEntry parse entry = Outcome.emit sid conv ↔
    ∃ kvs, entry = J.obj kvs ∧
      ∃ ks, getKeyString kvs = some ks ∧ ks ≠ "" ∧ sessionMatch ks = some sid ∧
        ∃ raw, getUtf8ValueString kvs = some raw ∧ parse raw = some conv ∧
          looksLikeConversation conv = true := by
  constructor
  · intro h
    cases entry with
    | obj kvs =>
      refine ⟨kvs, rfl, ?_⟩
      simp only [processEntry] at h
      split at h
      next => cases h
      next ks hks =>
        split at h
        next => cases h
        next hne =>
          split at h
          next => cases h
          next sid0 hsm =>
            split at h
            next => cases h
            next raw hraw =>
              split at h
              next => cases h
              next parsed hp =>
                split at h
                next hl =>
                  injection h with hsid hconv
                  subst hsid
                  subst hconv
                  exact ⟨ks, hks, hne, hsm, raw, hraw, hp, hl⟩
                next => cases h
    | null => simp [processEntry] at h
    | bool b => simp [processEntry] at h
    | num n => simp [processEntry] at h
    | str s => simp [processEntry] at h
    | arr xs => simp [processEntry] at h
  · rintro ⟨kvs, rfl, ks, hks, hne, hsm, raw, hraw, hp, hl⟩
    simp only [processEntry, hks, if_neg hne, hsm, hraw, hp, if_pos hl]

/-- Counterexample to C5 as stated: for the key `"chat:session_a\n"` the
spec-worded condition holds with session id `"a\n"` (the remainder after
the prefix), but the filter emits session id `"a"` - the regex excludes the
trailing newline from the captured group. -/
theorem C5_counterexample :
    specEmitCond parseConst entryNl "a\n" convSample ∧
    processEntry parseConst entryNl ≠ Outcome.emit "a\n" convSample := by
  constructor
  · exact ⟨_, rfl, rfl, ⟨"[]", rfl, rfl⟩, rfl⟩
  · intro hcon
    have heval : processEntry parseConst entryNl = Outcome.emit "a" convSample := rfl
    rw [heval] at hcon
    injection hcon with h1 h2
    exact absurd h1 (by decide)

/-- Witness for the amended C5: the emitting direction applied to a
well-formed concrete record. -/
theorem C5_filter_emit_iff_witness :
    processEntry parseConst entryGood = Outcome.emit "abc" convSample :=
  (C5_filter_emit_iff parseConst entryGood "abc" convSample).mpr
    ⟨_, rfl, "chat:session_abc", rfl, by decide, rfl, "x", rfl, rfl, rfl⟩

/-! ## Claim C8 -/

/-- Claim C8: the filter output and all skip counters are a function of the
extracted `doc["db"]["0"]["entries"]` alone - two documents with equal
extracted entries give identical results whatever else they contain. -/
theorem C8_entries_only (parse : String → Option J) (doc1 doc2 : J)
    (h : extractEntries doc1 = extractEntries doc2) :
    filterMain parse doc1 = filterMain parse doc2 := by
  unfold filterMain
  rw [h]

/-- Witness for C8: two documents differing in database `"1"` and metadata
but with the same database-`"0"` entries produce the same result. -/
theorem C8_entries_only_witness :
    extractEntries docA = extractEntries docB ∧
    filterMain parseConst docA = filterMain parseConst docB :=
  ⟨rfl, C8_entries_only parseConst docA docB rfl⟩

end Rdb2Json








